import Mathlib

attribute [local semireducible] Rat.mul Rat.add Rat.sub Rat.inv Rat.ofScientific

namespace DemoApp

/-!
Shallow embedding of the product-reconciliation core of the demo-app
repository (primarily src/excelOutput.py, which carries the deterministic
matcher and the local-spreadsheet grid engine).  Python strings are modelled
as Lean strings, Python numbers as rationals, dictionaries as association
lists with Python insertion-order update semantics, and spreadsheet grids as
lists of rows of cell strings.
-/

/-- Whitespace set of Python str.strip and of the regex class \s
(ASCII range; the sources only ever meet ASCII whitespace). -/
def isPySpace (c : Char) : Bool :=
  c == ' ' || c == '\t' || c == '\n' || c == '\r' || c == '\x0b' || c == '\x0c'

/-- ASCII decimal digit, the \d class on the inputs the program handles. -/
def isAsciiDigit (c : Char) : Bool :=
  '0' ≤ c && c ≤ '9'

/-- Python str.strip() on a character list. -/
def pyStripL (l : List Char) : List Char :=
  ((l.dropWhile isPySpace).reverse.dropWhile isPySpace).reverse

/-- Python str.strip(). -/
def pystrip (s : String) : String :=
  (pyStripL s.toList).asString

/-- The punctuation class [\.\)\-] of the leading-ordinal regex. -/
def isOrdPunct (c : Char) : Bool :=
  c == '.' || c == ')' || c == '-'

/-- Matcher for the regex ^\s*\d+[\.\)\-]\s* used by clean_product_name
(excelOutput.py line 153): optional whitespace, one or more digits, one
punctuation character, optional whitespace.  On success returns the rest of
the string after the marker.  The regex is anchored and each greedy piece
cannot profit from backtracking (a shorter \d+ leaves a digit where the
punctuation class is required), so maximal munch is exact. -/
def ordMarker (l : List Char) : Option (List Char) :=
  let l1 := l.dropWhile isPySpace
  let ds := l1.takeWhile isAsciiDigit
  let l2 := l1.dropWhile isAsciiDigit
  if ds.isEmpty then none
  else
    match l2 with
    | [] => none
    | c :: rest => if isOrdPunct c then some (rest.dropWhile isPySpace) else none

/-- re.sub(r"^\s*\d+[\.\)\-]\s*", "", l): remove the marker when it is
present (with no re.MULTILINE the anchor ^ matches only at the start, so at
most one substitution happens). -/
def stripOrdMarker (l : List Char) : List Char :=
  (ordMarker l).getD l

/-- clean_product_name (excelOutput.py lines 150-153): a falsy name becomes
the sentinel, otherwise the name is stripped and one leading ordinal marker
is removed. -/
def clean_product_name (s : String) : String :=
  if s = "" then "Unknown Product"
  else (stripOrdMarker (pyStripL s.toList)).asString


/-! ### Python JSON values -/

/-- A Python value as it can appear in the loosely-typed JSON records the
validator receives (numbers are modelled as rationals). -/
inductive JVal where
  | null
  | bool (b : Bool)
  | num (q : ℚ)
  | str (s : String)
  | arr (xs : List JVal)
  | obj (kvs : List (String × JVal))
deriving Inhabited

/-- Python truthiness. -/
def JVal.truthy : JVal → Bool
  | .null => false
  | .bool b => b
  | .num q => decide (q ≠ 0)
  | .str s => decide (s ≠ "")
  | .arr xs => !xs.isEmpty
  | .obj kvs => !kvs.isEmpty

/-- dict lookup (Python dictionaries have unique keys; the first binding of a
key wins in this association-list model). -/
def lookupStr {α} : List (String × α) → String → Option α
  | [], _ => none
  | (k, v) :: rest, key => if k = key then some v else lookupStr rest key

/-- Value of a digit run, most significant first. -/
def digitsVal (l : List Char) : ℕ :=
  l.foldl (fun a c => 10 * a + (c.toNat - '0'.toNat)) 0

/-- Full match of the regex -?\d+(\.\d+)? (excelOutput.py line 158),
returning the denoted rational. -/
def parseSignedDecimal (l : List Char) : Option ℚ :=
  let (neg, l1) : Bool × List Char :=
    match l with
    | '-' :: rest => (true, rest)
    | _ => (false, l)
  let ds := l1.takeWhile isAsciiDigit
  let l2 := l1.dropWhile isAsciiDigit
  if ds.isEmpty then none
  else
    match l2 with
    | [] => some (if neg then -(digitsVal ds : ℚ) else (digitsVal ds : ℚ))
    | '.' :: fs =>
      let fds := fs.takeWhile isAsciiDigit
      let l3 := fs.dropWhile isAsciiDigit
      if fds.isEmpty || !l3.isEmpty then none
      else
        let q : ℚ := (digitsVal ds : ℚ) + (digitsVal fds : ℚ) / ((10 : ℚ) ^ fds.length)
        some (if neg then -q else q)
    | _ => none

/-- Numeric part of _to_number_or_default (excelOutput.py lines 155-163):
str(val) is taken, commas are stripped and the result is accepted only if it
fully matches -?\d+(\.\d+)?.  A number round-trips through its own string
form (scientific notation of huge floats is not modelled), a string is
parsed, and str() of None, booleans and containers never matches the
pattern. -/
def pyNumOf : JVal → Option ℚ
  | .num q => some q
  | .str s => parseSignedDecimal (s.toList.filter (fun c => c ≠ ','))
  | _ => none

/-- _to_number_or_default with a rational default. -/
def toNumberOrDefault (v : JVal) (d : ℚ) : ℚ :=
  (pyNumOf v).getD d

/-- Python round() to the nearest integer, ties to even. -/
def roundHalfEven (x : ℚ) : ℤ :=
  let f := ⌊x⌋
  let r := x - f
  if r < 1 / 2 then f
  else if 1 / 2 < r then f + 1
  else if f % 2 = 0 then f else f + 1

/-- Python round(q, 2) on exact rationals (binary floating point is not
modelled; every value the claims touch is exactly representable). -/
def pyRound2 (q : ℚ) : ℚ :=
  (roundHalfEven (q * 100) : ℚ) / 100

/-- Python str() rendering, used only to feed free-text contact extraction.
Container rendering follows repr loosely and float rendering is approximated
for non-integers; no claim depends on this rendering. -/
def pyStrNum (q : ℚ) : String :=
  if q.den = 1 then toString q.num else toString q.num ++ "/" ++ toString q.den

mutual

def pyStr : JVal → String
  | .null => "None"
  | .bool b => if b then "True" else "False"
  | .num q => pyStrNum q
  | .str s => s
  | .arr xs => "[" ++ pyStrList xs ++ "]"
  | .obj kvs => "\x7b" ++ pyStrPairs kvs ++ "\x7d"

def pyStrList : List JVal → String
  | [] => ""
  | [x] => pyStr x
  | x :: rest => pyStr x ++ ", " ++ pyStrList rest

def pyStrPairs : List (String × JVal) → String
  | [] => ""
  | [(k, v)] => k ++ ": " ++ pyStr v
  | (k, v) :: rest => k ++ ": " ++ pyStr v ++ ", " ++ pyStrPairs rest

end

/-! ### extract_contact_info (excelOutput.py lines 128-148) -/

/-- The regex class \w; non-ASCII characters (such as Thai letters) count as
word characters in Python and are approximated as such here. -/
def isWordChar (c : Char) : Bool :=
  c.isAlphanum || c == '_' || decide (c.toNat > 127)

def isEmailLocalChar (c : Char) : Bool :=
  c.isAlphanum || c == '.' || c == '_' || c == '%' || c == '+' || c == '-'

def isDomainChar (c : Char) : Bool :=
  c.isAlphanum || c == '.' || c == '-'

/-- Greedy-domain backtracking split of [a-zA-Z0-9.-]+\.[a-zA-Z]\x7b2,\x7d:
the longest domain prefix followed by a dot and at least two letters wins,
mirroring the engine's preference order. -/
def emailDomainSplit (run : List Char) : Option (List Char × List Char) :=
  (List.range run.length).reverse.findSome? (fun d =>
    if h : d < run.length then
      if 1 ≤ d ∧ run.get ⟨d, h⟩ = '.' then
        let tailPart := run.drop (d + 1)
        let letters := tailPart.takeWhile Char.isAlpha
        if 2 ≤ letters.length then
          some (run.take (d + 1) ++ letters, tailPart.drop letters.length)
        else none
      else none
    else none)

/-- One attempt of the email regex at the current position. -/
def emailMatchAt (l : List Char) : Option (String × List Char) :=
  let loc := l.takeWhile isEmailLocalChar
  let l1 := l.dropWhile isEmailLocalChar
  if loc.isEmpty then none
  else
    match l1 with
    | '@' :: l2 =>
      let run := l2.takeWhile isDomainChar
      let rest0 := l2.dropWhile isDomainChar
      match emailDomainSplit run with
      | some (used, unused) => some ((loc ++ '@' :: used).asString, unused ++ rest0)
      | none => none
    | _ => none

/-- re.findall of the email pattern: leftmost non-overlapping matches.  The
fuel always suffices since every step consumes at least one character. -/
def scanEmailsAux : ℕ → List Char → List String
  | 0, _ => []
  | _ + 1, [] => []
  | n + 1, c :: rest =>
    match emailMatchAt (c :: rest) with
    | some (e, rest') => e :: scanEmailsAux n rest'
    | none => scanEmailsAux n rest

def scanEmails (l : List Char) : List String :=
  scanEmailsAux (l.length + 1) l

/-- Exactly n digits. -/
def digitsN : ℕ → List Char → Option (List Char)
  | 0, l => some l
  | _ + 1, [] => none
  | n + 1, c :: rest => if isAsciiDigit c then digitsN n rest else none

/-- The optional separator [-\s]? with the greedy choice first. -/
def sepOpts (l : List Char) : List (List Char) :=
  match l with
  | c :: rest => if c == '-' || isPySpace c then [rest, l] else [l]
  | [] => [l]

def notWordAhead (l : List Char) : Bool :=
  match l with
  | [] => true
  | c :: _ => !isWordChar c

/-- Alternative 0\d\x7b1,2\x7d[-\s]?\d\x7b3\x7d[-\s]?\d\x7b3,4\x7d of the
phone regex, greedy counts first, checking the trailing (?!\w). -/
def phoneMatchA (l : List Char) : Option (List Char) :=
  match l with
  | '0' :: l1 =>
    [2, 1].findSome? (fun d1 =>
      (digitsN d1 l1).bind (fun l2 =>
        (sepOpts l2).findSome? (fun l3 =>
          (digitsN 3 l3).bind (fun l4 =>
            (sepOpts l4).findSome? (fun l5 =>
              [4, 3].findSome? (fun d2 =>
                (digitsN d2 l5).bind (fun l6 =>
                  if notWordAhead l6 then some l6 else none)))))))
  | _ => none

/-- Alternative 0\d\x7b2\x7d[-\s]?\d\x7b7\x7d. -/
def phoneMatchB (l : List Char) : Option (List Char) :=
  match l with
  | '0' :: l1 =>
    (digitsN 2 l1).bind (fun l2 =>
      (sepOpts l2).findSome? (fun l3 =>
        (digitsN 7 l3).bind (fun l4 =>
          if notWordAhead l4 then some l4 else none)))
  | _ => none

/-- Alternative 0\d\x7b2\x7d[-\s]?\d\x7b3\x7d[-\s]?\d\x7b4\x7d. -/
def phoneMatchC (l : List Char) : Option (List Char) :=
  match l with
  | '0' :: l1 =>
    (digitsN 2 l1).bind (fun l2 =>
      (sepOpts l2).findSome? (fun l3 =>
        (digitsN 3 l3).bind (fun l4 =>
          (sepOpts l4).findSome? (fun l5 =>
            (digitsN 4 l5).bind (fun l6 =>
              if notWordAhead l6 then some l6 else none)))))
  | _ => none

def phoneAlt (l : List Char) : Option (List Char) :=
  (phoneMatchA l).orElse (fun _ => (phoneMatchB l).orElse (fun _ => phoneMatchC l))

/-- re.findall of the phone pattern, tracking the look-behind (?<!\w) via the
previous character; after a match the previous character is a digit, hence a
word character. -/
def scanPhonesAux : ℕ → Bool → List Char → List String
  | 0, _, _ => []
  | _ + 1, _, [] => []
  | n + 1, prevW, c :: rest =>
    if !prevW then
      match phoneAlt (c :: rest) with
      | some rest' =>
        ((c :: rest).take ((c :: rest).length - rest'.length)).asString ::
          scanPhonesAux n true rest'
      | none => scanPhonesAux n (isWordChar c) rest
    else scanPhonesAux n (isWordChar c) rest

def scanPhones (l : List Char) : List String :=
  scanPhonesAux (l.length + 1) false l

def insertSorted (x : String) : List String → List String
  | [] => [x]
  | y :: rest => if x ≤ y then x :: y :: rest else y :: insertSorted x rest

/-- Python sorted(set(l)) for strings. -/
def sortedSet (l : List String) : List String :=
  l.dedup.foldr insertSorted []

/-- extract_contact_info (excelOutput.py lines 128-148). -/
def extract_contact_info (text : String) : String :=
  if text = "" then ""
  else
    let emails := sortedSet (scanEmails text.toList)
    let phoneRaw := scanPhones text.toList
    let phones :=
      sortedSet
        ((phoneRaw.map (fun p => (p.toList.filter (fun c => !isPySpace c)).asString)).filter
          (fun p => 9 ≤ p.length))
    let parts :=
      (if emails.isEmpty then [] else ["Email: " ++ String.intercalate ", " emails]) ++
        (if phones.isEmpty then [] else ["Phone: " ++ String.intercalate ", " phones])
    String.intercalate ", " parts

/-! ### validate_json_data (excelOutput.py lines 165-233) -/

/-- A validated product line as the validator leaves it: name and the three
money fields always end up with definite values; the unit keeps whatever
truthy value it had. -/
structure VProduct where
  name : String
  quantity : ℚ
  unit : JVal
  pricePerUnit : ℚ
  totalPrice : ℚ

/-- The validated record.  Fields the code only defaults (company, the four
footer fields) keep their original Python values. -/
structure VRecord where
  company : JVal
  contact : String
  vat : Bool
  products : List VProduct
  totalPrice : ℚ
  totalVat : ℚ
  totalPriceIncludeVat : ℚ
  priceGuaranteeDay : JVal
  deliveryTime : JVal
  paymentTerms : JVal
  otherNotes : JVal

/-- The fully-defaulted record returned for falsy input. -/
def vDefaultRecord : VRecord :=
  ⟨.str "Unknown Company", "", false, [], 0, 0, 0, .num 0, .str "", .str "", .str ""⟩

/-- Contact rendering for a structured contact dict. -/
def renderContactDict (ckvs : List (String × JVal)) : String :=
  let p1 :=
    match lookupStr ckvs "email" with
    | some e => if e.truthy then ["Email: " ++ pyStr e] else []
    | none => []
  let p2 :=
    match lookupStr ckvs "phone" with
    | some p => if p.truthy then ["Phone: " ++ pyStr p] else []
    | none => []
  String.intercalate ", " (p1 ++ p2)

/-- The per-product body of the validator loop once the name has been
resolved: quantity coerced with default 1 and reset to 1 when non-positive,
unit defaulted when falsy, price coerced with default 0, and the line total
taken verbatim when parseable, else round(quantity * price, 2). -/
def mkVProduct (name : String) (pkvs : List (String × JVal)) : VProduct :=
  let q0 := toNumberOrDefault ((lookupStr pkvs "quantity").getD (.num 1)) 1
  let quantity := if q0 ≤ 0 then 1 else q0
  let unitRaw := (lookupStr pkvs "unit").getD .null
  let unit := if unitRaw.truthy then unitRaw else JVal.str "ชิ้น"
  let ppu := toNumberOrDefault ((lookupStr pkvs "pricePerUnit").getD (.num 0)) 0
  let total :=
    match pyNumOf ((lookupStr pkvs "totalPrice").getD .null) with
    | none => pyRound2 (quantity * ppu)
    | some t => t
  ⟨name, quantity, unit, ppu, total⟩

/-- One iteration of the validator's product loop.  clean_product_name is
applied to the name (or the sentinel when the name is falsy); a truthy
non-string name makes Python raise inside clean_product_name. -/
def vProductOfObj (pkvs : List (String × JVal)) : Except String VProduct :=
  let rawName := (lookupStr pkvs "name").getD JVal.null
  if rawName.truthy then
    match rawName with
    | .str s => Except.ok (mkVProduct (clean_product_name s) pkvs)
    | _ => Except.error "AttributeError"
  else Except.ok (mkVProduct (clean_product_name "Unknown Product") pkvs)

/-- One product entry of the products list; a non-dict element makes Python
raise on .get. -/
def vProductOfVal : JVal → Except String VProduct
  | .obj pkvs => vProductOfObj pkvs
  | _ => Except.error "AttributeError"

/-- The products value the validator iterates over, from the looked-up
products field: a falsy products field is replaced by the empty list; a
truthy non-list makes Python raise when iterated over dict elements. -/
def prodValsOfOpt : Option JVal → Except String (List JVal)
  | some p =>
    if p.truthy then
      match p with
      | .arr xs => Except.ok xs
      | _ => Except.error "TypeError"
    else Except.ok []
  | none => Except.ok []

def prodValsOf (kvs : List (String × JVal)) : Except String (List JVal) :=
  prodValsOfOpt (lookupStr kvs "products")

/-- The pure tail of the validator: company default, contact normalization,
vat coercion, and the three document totals with their verbatim-or-computed
rule (0.07 VAT rate, round to 2 decimals). -/
def assembleRecord (kvs : List (String × JVal)) (products : List VProduct) : VRecord :=
  let company :=
    let c := (lookupStr kvs "company").getD .null
    if c.truthy then c else JVal.str "Unknown Company"
  let contact : String :=
    match lookupStr kvs "contact" with
    | some (.obj ckvs) => renderContactDict ckvs
    | some cv => extract_contact_info (pyStr cv)
    | none => ""
  let vat :=
    match lookupStr kvs "vat" with
    | none => false
    | some x => x.truthy
  let computed := (products.map VProduct.totalPrice).sum
  let totalPrice :=
    toNumberOrDefault ((lookupStr kvs "totalPrice").getD (.num computed)) computed
  let vatDefault := pyRound2 (totalPrice * (0.07 : ℚ))
  let totalVat :=
    toNumberOrDefault ((lookupStr kvs "totalVat").getD (.num vatDefault)) vatDefault
  let incDefault := pyRound2 (totalPrice + totalVat)
  let totalPriceIncludeVat :=
    toNumberOrDefault
      ((lookupStr kvs "totalPriceIncludeVat").getD (.num incDefault)) incDefault
  let pgd := (lookupStr kvs "priceGuaranteeDay").getD (.num 0)
  let dt := (lookupStr kvs "deliveryTime").getD (.str "")
  let pt := (lookupStr kvs "paymentTerms").getD (.str "")
  let onotes := (lookupStr kvs "otherNotes").getD (.str "")
  ⟨company, contact, vat, products, totalPrice, totalVat, totalPriceIncludeVat,
    pgd, dt, pt, onotes⟩

/-- validate_json_data (excelOutput.py lines 165-233).  Exceptions Python
would raise are modelled as Except.error: a truthy non-dict input, a truthy
non-list products field, a non-dict product element, a truthy non-string
product name. -/
def validateProducts : Except String (List JVal) → Except String (List VProduct)
  | .error e => .error e
  | .ok prodVals => prodVals.mapM vProductOfVal

def finishValidate (kvs : List (String × JVal)) :
    Except String (List VProduct) → Except String VRecord
  | .error e => .error e
  | .ok products => .ok (assembleRecord kvs products)

def validate_json_data (v : JVal) : Except String VRecord :=
  if v.truthy = false then Except.ok vDefaultRecord
  else
    match v with
    | .obj kvs => finishValidate kvs (validateProducts (prodValsOf kvs))
    | _ => Except.error "AttributeError"

/-! ### Inputs on which Python's validate_json_data cannot raise -/

/-- A name field the validator's loop survives: absent, falsy, or a string. -/
def safeNameOpt : Option JVal → Bool
  | some n => !n.truthy || (match n with | .str _ => true | _ => false)
  | none => true

/-- A product element the validator's loop survives: a dict whose name field,
when truthy, is a string. -/
def safeProductVal : JVal → Bool
  | .obj pkvs => safeNameOpt (lookupStr pkvs "name")
  | _ => false

def safeProducts : JVal → Bool
  | .arr xs => xs.all safeProductVal
  | _ => false

def safeProductsOpt : Option JVal → Bool
  | some p => !p.truthy || safeProducts p
  | none => true

/-- An input the validator survives: anything falsy, or a dict whose truthy
products field is a list of safe product dicts. -/
def safeInput (v : JVal) : Bool :=
  if v.truthy = false then true
  else
    match v with
    | .obj kvs => safeProductsOpt (lookupStr kvs "products")
    | _ => false

/-! ### Smart-matching text normalization (excelOutput.py lines 257-264) -/

/-- Python str.lower(), ASCII range (Thai characters have no case). -/
def toLowerPy (s : String) : String :=
  (s.toList.map Char.toLower).asString

/-- The two glyph replacements of _normalize_text. -/
def unifyGlyphs (l : List Char) : List Char :=
  l.map (fun c => if c = '×' || c = '*' then 'x' else c)

/-- re.sub(r"\s+", " ", l): collapse every whitespace run to one space. -/
def collapseWsAux : Bool → List Char → List Char
  | _, [] => []
  | prevSpace, c :: rest =>
    if isPySpace c then
      if prevSpace then collapseWsAux true rest
      else ' ' :: collapseWsAux true rest
    else c :: collapseWsAux false rest

/-- _normalize_text: lower, strip, unify multiplication glyphs, drop one
leading ordinal marker, collapse whitespace. -/
def normalize_text (s : String) : String :=
  if s = "" then ""
  else
    (collapseWsAux false
      (stripOrdMarker (unifyGlyphs (pyStripL (toLowerPy s).toList)))).asString

/-! ### Dimension parsing (excelOutput.py lines 266-333) -/

/-- Parsed dimensions: the labeled axis map (keys w/h/l/t/d, Python dict
insertion-order semantics) and the list of sorted base-unit tuples. -/
structure Dims where
  labeled : List (String × ℚ)
  sequence : List (List ℚ)
deriving DecidableEq, Inhabited

/-- Python dict assignment d[k] = v on an insertion-ordered association
list: overwrite in place, else append. -/
def insertPy {α} : List (String × α) → String → α → List (String × α)
  | [], k, v => [(k, v)]
  | (k', v') :: rest, k, v =>
    if k' = k then (k, v) :: rest else (k', v') :: insertPy rest k v

/-- Python dict.setdefault. -/
def setdefaultPy {α} (m : List (String × α)) (k : String) (v : α) :
    List (String × α) :=
  match lookupStr m k with
  | some _ => m
  | none => m ++ [(k, v)]

/-- The _UNIT_MM table. -/
def unitToMm : String → Option ℚ
  | "มม" => some 1
  | "mm" => some 1
  | "ซม" => some 10
  | "cm" => some 10
  | "ม." => some 1000
  | "เมตร" => some 1000
  | "m" => some 1000
  | _ => none

/-- _to_mm: explicit unit conversion, else the heuristic that values up to
100 are meter-scale. -/
def to_mm (val : ℚ) (unit : String) : ℚ :=
  match unitToMm (pystrip (toLowerPy unit)) with
  | some f => val * f
  | none => if val ≤ 100 then val * 1000 else val

/-- \d+(\.\d+)? at the current position, returning value and rest. -/
def parseNumberAt (l : List Char) : Option (ℚ × List Char) :=
  let ds := l.takeWhile isAsciiDigit
  let l2 := l.dropWhile isAsciiDigit
  if ds.isEmpty then none
  else
    match l2 with
    | '.' :: fs =>
      let fds := fs.takeWhile isAsciiDigit
      if fds.isEmpty then some ((digitsVal ds : ℚ), l2)
      else
        some ((digitsVal ds : ℚ) + (digitsVal fds : ℚ) / ((10 : ℚ) ^ fds.length),
          fs.dropWhile isAsciiDigit)
    | _ => some ((digitsVal ds : ℚ), l2)

/-- The optional unit alternation (มม|mm|ซม|cm|ม\.|เมตร|m), first alternative
wins; empty capture when none matches. -/
def parseUnitAt (l : List Char) : String × List Char :=
  match ["มม", "mm", "ซม", "cm", "ม.", "เมตร", "m"].find?
      (fun pat => pat.toList.isPrefixOf l) with
  | some pat => (pat, l.drop pat.length)
  | none => ("", l)

/-- The label alternation of patt_labeled in source order; thick(?:ness)? is
flattened greedily to thickness-then-thick, and the [whltd] class comes
last.  Each alternative carries its _DIM_LABELS axis key. -/
def labelAlternatives : List (String × String) :=
  [("กว้าง", "w"), ("สูง", "h"), ("ยาว", "l"), ("หนา", "t"), ("ลึก", "d"),
   ("width", "w"), ("height", "h"), ("length", "l"),
   ("thickness", "t"), ("thick", "t"), ("depth", "d"),
   ("w", "w"), ("h", "h"), ("l", "l"), ("t", "t"), ("d", "d")]

/-- patt_labeled at the current position:
label \s* [:=]? \s* number \s* unit?. -/
def matchLabeledAt (l : List Char) : Option ((String × ℚ × String) × List Char) :=
  labelAlternatives.findSome? (fun alt =>
    if alt.1.toList.isPrefixOf l then
      let r1 := (l.drop alt.1.length).dropWhile isPySpace
      let r2 :=
        match r1 with
        | c :: rest => if c = ':' || c = '=' then rest else r1
        | [] => r1
      let r3 := r2.dropWhile isPySpace
      (parseNumberAt r3).map (fun nr =>
        let r4 := nr.2.dropWhile isPySpace
        let (u, r5) := parseUnitAt r4
        ((alt.2, nr.1, u), r5))
    else none)

/-- patt_seq at the current position:
number \s* x \s* number (\s* x \s* number)? \s* unit?. -/
def matchSeqAt (l : List Char) : Option ((ℚ × ℚ × Option ℚ × String) × List Char) :=
  (parseNumberAt l).bind (fun ar =>
    match ar.2.dropWhile isPySpace with
    | 'x' :: r3 =>
      (parseNumberAt (r3.dropWhile isPySpace)).map (fun br =>
        let third :=
          match br.2.dropWhile isPySpace with
          | 'x' :: t2 =>
            match parseNumberAt (t2.dropWhile isPySpace) with
            | some cr => some cr
            | none => none
          | _ => none
        match third with
        | some cr =>
          let r7 := cr.2.dropWhile isPySpace
          let (u, r8) := parseUnitAt r7
          ((ar.1, br.1, some cr.1, u), r8)
        | none =>
          let r7 := br.2.dropWhile isPySpace
          let (u, r8) := parseUnitAt r7
          ((ar.1, br.1, none, u), r8))
    | _ => none)

/-- The digits-unit core of patt_thick: \s* number \s* (มม|mm) \b. -/
def thickCore (l : List Char) : Option ((ℚ × String) × List Char) :=
  (parseNumberAt (l.dropWhile isPySpace)).bind (fun nr =>
    let r2 := nr.2.dropWhile isPySpace
    match ["มม", "mm"].find? (fun pat => pat.toList.isPrefixOf r2) with
    | some pat =>
      let r3 := r2.drop pat.length
      if notWordAhead r3 then some ((nr.1, pat), r3) else none
    | none => none)

/-- patt_thick at the current position: optional
(หนา|thick(?:ness)?|t) prefix, then the digits-unit core. -/
def matchThickAt (l : List Char) : Option ((ℚ × String) × List Char) :=
  (["หนา", "thickness", "thick", "t"].findSome? (fun pat =>
    if pat.toList.isPrefixOf l then thickCore (l.drop pat.length) else none)).orElse
    (fun _ => thickCore l)

/-- re.findall driver: leftmost non-overlapping matches, advancing one
character on failure.  Every matcher consumes at least one character, so the
length-plus-one fuel always suffices. -/
def scanWith {α} (matchAt : List Char → Option (α × List Char)) :
    ℕ → List Char → List α
  | 0, _ => []
  | _ + 1, [] => []
  | n + 1, c :: rest =>
    match matchAt (c :: rest) with
    | some (a, rest') => a :: scanWith matchAt n rest'
    | none => scanWith matchAt n rest

/-- Ascending insertion sort on rationals (list.sort()). -/
def insertRat (x : ℚ) : List ℚ → List ℚ
  | [] => [x]
  | y :: rest => if x ≤ y then x :: y :: rest else y :: insertRat x rest

def sortRat (l : List ℚ) : List ℚ :=
  l.foldr insertRat []

/-- _parse_dimensions (excelOutput.py lines 288-314): the labeled pass, the
sequence pass with sorting and dedup, then the thickness backfill via
setdefault. -/
def parse_dimensions (text : String) : Dims :=
  let s := (normalize_text text).toList
  let labeledPairs := scanWith matchLabeledAt (s.length + 1) s
  let labeled1 := labeledPairs.foldl
    (fun m kqu => insertPy m kqu.1 (to_mm kqu.2.1 kqu.2.2)) []
  let seqMatches := scanWith matchSeqAt (s.length + 1) s
  let seqs := seqMatches.foldl
    (fun acc m =>
      let nums := [m.1, m.2.1] ++ (match m.2.2.1 with | some c => [c] | none => [])
      let mmVals := sortRat (nums.map (fun v => to_mm v m.2.2.2))
      if mmVals ∈ acc then acc else acc ++ [mmVals])
    []
  let thickMatches := scanWith matchThickAt (s.length + 1) s
  let labeled2 := thickMatches.foldl
    (fun m nu => setdefaultPy m "t" (to_mm nu.1 nu.2)) labeled1
  ⟨labeled2, seqs⟩

/-- _nearly_equal_mm with the default pct = 0.02 and abs_mm = 5. -/
def nearly_equal_mm (a b : ℚ) : Bool :=
  if a = 0 || b = 0 then decide (|a - b| ≤ 5)
  else decide (|a - b| ≤ max 5 ((0.02 : ℚ) * max a b))

/-- _dims_close: shared labeled axes must all agree; then, when both sides
have sequences, the first sequences decide; otherwise compatible. -/
def dims_close (da db : Dims) : Bool :=
  let la := da.labeled
  let lb := db.labeled
  let inter := (la.map Prod.fst).filter (fun k => (lb.map Prod.fst).contains k)
  let labeledOk :=
    inter.all (fun k => nearly_equal_mm ((lookupStr la k).getD 0) ((lookupStr lb k).getD 0))
  if !inter.isEmpty && !labeledOk then false
  else
    match da.sequence, db.sequence with
    | s0 :: _, t0 :: _ =>
      s0.length = t0.length && (List.zip s0 t0).all (fun p => nearly_equal_mm p.1 p.2)
    | _, _ => true

/-! ### Semantic keyword classes (excelOutput.py lines 335-381) -/

/-- Substring containment, Python's `kw in s`. -/
def containsSub : List Char → List Char → Bool
  | s, pat =>
    if pat.isPrefixOf s then true
    else
      match s with
      | [] => pat.isEmpty
      | _ :: rest => containsSub rest pat

def strContains (s pat : String) : Bool :=
  containsSub s.toList pat.toList

/-- _TYPE_KEYWORDS in source order. -/
def typeKeywords : List (String × List String) :=
  [("aluminum_rail",
    ["รางอลูมิเนียม", "อลูมิเนียมโปรไฟล์", "aluminium rail", "aluminum rail", "ราง alu"]),
   ("steel_u", ["เหล็กตัวยู", "u-channel", "เหล็ก u", "รางยู", "เหล็กยู"]),
   ("glass_tempered", ["กระจกเทมเปอร์", "tempered glass", "เทมเปอร์"]),
   ("glass_laminate", ["กระจกลาามิเนต", "laminated glass", "laminate glass", "ลามิเนต"]),
   ("hinge", ["บานพับ", "hinge"]),
   ("handle", ["มือจับ", "handle", "knob", "pull"]),
   ("seal", ["ยางขอบ", "ซีล", "seal", "gasket"]),
   ("bracket", ["โช๊ค", "โช๊คอัพ", "bracket", "closer"]),
   ("frame", ["วงกบ", "กรอบ", "frame"])]

/-- _normalize_types: keyword classes found in the normalized text, plus the
generic glass class when glass is mentioned without a specific glass type. -/
def normalize_types (text : String) : List String :=
  let s := normalize_text text
  let got := (typeKeywords.filter (fun tk => tk.2.any (fun kw => strContains s kw))).map Prod.fst
  if (strContains s "กระจก" || strContains s "glass") &&
      !(got.contains "glass_tempered" || got.contains "glass_laminate") then
    got ++ ["glass_generic"]
  else got

/-- _tokenize_material_semantics in source order. -/
def material_semantics (text : String) : List String :=
  let s := normalize_text text
  (if strContains s "อลูมิเนียม" || strContains s "aluminium" || strContains s "aluminum"
    then ["aluminium"] else []) ++
  (if strContains s "เหล็ก" || strContains s "steel" then ["steel"] else []) ++
  (if strContains s "กระจก" || strContains s "glass" then ["glass"] else []) ++
  (if strContains s "สแตนเลส" || strContains s "stainless" then ["stainless"] else []) ++
  (if strContains s "ตัวซี" || strContains s "c-channel" then ["c_channel"] else []) ++
  (if strContains s "ตัวยู" || strContains s "u-channel" then ["u_channel"] else []) ++
  (if strContains s "โปรไฟล์" then ["profile"] else [])

/-- _semantic_compatible: overlapping type classes, else overlapping
material classes. -/
def semantic_compatible (a b : String) : Bool :=
  let ta := normalize_types a
  let tb := normalize_types b
  if !ta.isEmpty && !tb.isEmpty && ta.any (fun k => tb.contains k) then true
  else (material_semantics a).any (fun k => (material_semantics b).contains k)

/-! ### match_products_smart (excelOutput.py lines 383-433) -/

/-- A product line item as the grid engine and matcher see it (validated
data, so all five fields are present). -/
structure Item where
  name : String
  quantity : ℚ
  unit : String
  pricePerUnit : ℚ
  totalPrice : ℚ
deriving DecidableEq, Inhabited

/-- A reference product: only the name is carried. -/
structure RefItem where
  name : String
deriving DecidableEq

structure MatchResult where
  matchedItems : List Item
  uniqueItems : List Item
deriving DecidableEq

/-- ref_norm_map: normalized name → original name, built in reference
order (one Python loop fills both dicts; they share keys). -/
def refNormMap (refs : List RefItem) : List (String × String) :=
  refs.foldl (fun m r => insertPy m (normalize_text r.name) r.name) []

/-- ref_dims_map: normalized name → parsed dimensions of the original. -/
def refDimsMap (refs : List RefItem) : List (String × Dims) :=
  refs.foldl (fun m r => insertPy m (normalize_text r.name) (parse_dimensions r.name)) []

/-- A matched output item: the reference's canonical name with the target's
figures. -/
def mkMatched (refName : String) (item : Item) : Item :=
  ⟨refName, item.quantity, item.unit, item.pricePerUnit, item.totalPrice⟩

/-- The per-target loop of match_products_smart: exact normalized match
first, then the first reference with close dimensions and compatible
semantics, else unique. -/
def matchLoop (normMap : List (String × String)) (dimsMap : List (String × Dims)) :
    List Item → MatchResult
  | [] => ⟨[], []⟩
  | item :: rest =>
    let res := matchLoop normMap dimsMap rest
    let nm := pystrip item.name
    let nmClean := normalize_text nm
    let dimsT := parse_dimensions nm
    match lookupStr normMap nmClean with
    | some orig => ⟨mkMatched orig item :: res.matchedItems, res.uniqueItems⟩
    | none =>
      match normMap.findSome? (fun p =>
        if dims_close dimsT ((lookupStr dimsMap p.1).getD default) &&
            semantic_compatible nm p.2 then some p.2 else none) with
      | some best => ⟨mkMatched best item :: res.matchedItems, res.uniqueItems⟩
      | none => ⟨res.matchedItems, item :: res.uniqueItems⟩

def match_products_smart (targets : List Item) (refs : List RefItem) : MatchResult :=
  matchLoop (refNormMap refs) (refDimsMap refs) targets

/-! ### Grid layout engine (excelOutput.py lines 24-38 and 447-780) -/

def COMPANY_NAME_ROW : ℕ := 1
def CONTACT_INFO_ROW : ℕ := 2
def HEADER_ROW : ℕ := 3
def ITEM_MASTER_LIST_COL : ℕ := 2
def COLUMNS_PER_SUPPLIER : ℕ := 4

def SUMMARY_LABELS : List String :=
  ["รวมเป็นเงิน",
   "ภาษีมูลค่าเพิ่ม 7%",
   "ยอดรวมทั้งสิ้น",
   "กำหนดยืนราคา (วัน)",
   "ระยะเวลาส่งมอบสินค้าหลังจากได้รับ PO",
   "การชำระเงิน",
   "อื่น ๆ"]

/-- A snapshot of the sheet, as get_all_values returns it: rows of cell
strings (ragged, trailing empties trimmed). -/
def Grid := List (List String)

/-- A cell payload of a batch_update write: the code writes strings and
numbers. -/
inductive Val where
  | s (x : String)
  | q (x : ℚ)
deriving DecidableEq, Inhabited

/-- One batch_update request; the A1-style range string of the source is
modelled as its column/row bounds. -/
structure WriteReq where
  c1 : ℕ
  r1 : ℕ
  c2 : ℕ
  r2 : ℕ
  values : List (List Val)
deriving DecidableEq, Inhabited

def cellReq (c r : ℕ) (v : Val) : WriteReq := ⟨c, r, c, r, [[v]]⟩

def rowReq (c1 r c2 : ℕ) (vs : List Val) : WriteReq := ⟨c1, r, c2, r, [vs]⟩

/-- A validated record as the update functions consume it (every field
present after validate_json_data). -/
structure QuoteData where
  company : String
  contact : String
  products : List Item
  totalPrice : ℚ
  totalVat : ℚ
  totalPriceIncludeVat : ℚ
  priceGuaranteeDay : Val
  deliveryTime : Val
  paymentTerms : Val
  otherNotes : Val
deriving DecidableEq, Inhabited

/-- ensure_first_three_rows_exist: blank A1:B1 through A3:B3. -/
def ensureFirstThreeRowsReqs : List WriteReq :=
  (List.range 3).map (fun i => ⟨1, i + 1, 2, i + 1, [[Val.s "", Val.s ""]]⟩)

/-- One row of the _last_non_empty_col_in_top_rows scan: the running
maximum over 1-based indices of non-blank cells. -/
def rowLastNonEmpty (last : ℕ) (row : List String) : ℕ :=
  (List.range row.length).foldl
    (fun acc i => if pystrip (row.getD i "") ≠ "" then max acc (i + 1) else acc) last

/-- _last_non_empty_col_in_top_rows (excelOutput.py lines 453-460). -/
def lastNonEmptyColInTopRows (grid : Grid) : ℕ :=
  (grid.take HEADER_ROW).foldl rowLastNonEmpty ITEM_MASTER_LIST_COL

/-- find_next_available_column (excelOutput.py lines 462-469): round the
used width up to whole supplier blocks after the master-list column. -/
def find_next_available_column (grid : Grid) : ℕ :=
  let start_col := ITEM_MASTER_LIST_COL + 1
  let last_used := lastNonEmptyColInTopRows grid
  if last_used < start_col then start_col
  else
    let offset := last_used - start_col + 1
    let groups_used := (offset + COLUMNS_PER_SUPPLIER - 1) / COLUMNS_PER_SUPPLIER
    start_col + groups_used * COLUMNS_PER_SUPPLIER

/-- Python range(a, b, step). -/
def rangeStep (a b step : ℕ) : List ℕ :=
  (List.range ((b - a + step - 1) / step)).map (fun i => a + i * step)

/-- The product/summary scan state of the single-file path: existing
products with their rows, the summary-label row map, and first_summary_row
(-1 when none seen). -/
structure ScanState where
  existing : List (String × ℕ)
  summap : List (String × ℕ)
  first : ℤ
deriving DecidableEq

/-- One row of the single-file scan (excelOutput.py lines 483-492). -/
def scanStep (st : ScanState) (idx : ℕ) (row : List String) : ScanState :=
  if 2 ≤ row.length ∧ pystrip (row.getD (ITEM_MASTER_LIST_COL - 1) "") ≠ "" then
    let cell := pystrip (row.getD (ITEM_MASTER_LIST_COL - 1) "")
    if cell ∈ SUMMARY_LABELS then
      { st with
        first := if st.first = -1 then (idx : ℤ) else st.first,
        summap := insertPy st.summap cell idx }
    else
      { st with existing := st.existing ++ [(clean_product_name cell, idx)] }
  else st

def scanRowsFrom : ScanState → ℕ → List (List String) → ScanState
  | st, _, [] => st
  | st, idx, r :: rs => scanRowsFrom (scanStep st idx r) (idx + 1) rs

def scanGrid (grid : Grid) : ScanState :=
  scanRowsFrom ⟨[], [], -1⟩ (HEADER_ROW + 1) (grid.drop HEADER_ROW)

/-- existing_suppliers of the single-file path (excelOutput.py lines
494-505): walk header columns in block strides. -/
def existingSuppliers (grid : Grid) : List (String × ℕ) :=
  let headerRowValues := grid.headD []
  (rangeStep (ITEM_MASTER_LIST_COL + 1) (headerRowValues.length + 1)
      COLUMNS_PER_SUPPLIER).foldl
    (fun m colIdx =>
      let supplierName :=
        if COMPANY_NAME_ROW - 1 < grid.length ∧
            colIdx - 1 < (grid.getD (COMPANY_NAME_ROW - 1) []).length then
          pystrip ((grid.getD (COMPANY_NAME_ROW - 1) []).getD (colIdx - 1) "")
        else ""
      if supplierName ≠ "" then insertPy m supplierName colIdx else m)
    []

/-- The seven summary label/value pairs in source order. -/
def summaryItems (data : QuoteData) : List (String × Val) :=
  [("รวมเป็นเงิน", Val.q data.totalPrice),
   ("ภาษีมูลค่าเพิ่ม 7%", Val.q data.totalVat),
   ("ยอดรวมทั้งสิ้น", Val.q data.totalPriceIncludeVat),
   ("กำหนดยืนราคา (วัน)", data.priceGuaranteeDay),
   ("ระยะเวลาส่งมอบสินค้าหลังจากได้รับ PO", data.deliveryTime),
   ("การชำระเงิน", data.paymentTerms),
   ("อื่น ๆ", data.otherNotes)]

/-- The three header requests of a supplier block: company, contact, and
the four fixed column headers. -/
def headerReqs (colIdx : ℕ) (data : QuoteData) : List WriteReq :=
  [cellReq colIdx COMPANY_NAME_ROW (Val.s data.company),
   cellReq colIdx CONTACT_INFO_ROW (Val.s (pystrip data.contact)),
   rowReq colIdx HEADER_ROW (colIdx + COLUMNS_PER_SUPPLIER - 1)
     [Val.s "ปริมาณ", Val.s "หน่วย", Val.s "ราคาต่อหน่วย", Val.s "รวมเป็นเงิน"]]

def itemRowVals (item : Item) : List Val :=
  [Val.q item.quantity, Val.s item.unit, Val.q item.pricePerUnit, Val.q item.totalPrice]

/-- The matched-items writes: first existing row with the same name not yet
populated wins; one write per row at most. -/
def matchedReqs (colIdx : ℕ) (existing : List (String × ℕ)) (matched : List Item) :
    List WriteReq :=
  (matched.foldl
    (fun (acc : List WriteReq × List ℕ) item =>
      match existing.find? (fun e => e.1 = item.name && !(acc.2.contains e.2)) with
      | some e =>
        (acc.1 ++ [rowReq colIdx e.2 (colIdx + COLUMNS_PER_SUPPLIER - 1) (itemRowVals item)],
         acc.2 ++ [e.2])
      | none => acc)
    ([], [])).1

/-- The new-product filter: names re-cleaned, then anything whose name an
existing product already carries is dropped. -/
def newProductsOf (existing : List (String × ℕ)) (uniqueItems : List Item) : List Item :=
  (uniqueItems.map (fun item => { item with name := clean_product_name item.name })).filter
    (fun item => !(existing.any (fun e => e.1 = item.name)))

/-- The per-new-product writes: name in the master-list column, figures in
the supplier block, at consecutive rows from the insertion row. -/
def newProductReqs (colIdx insertionRow : ℕ) (newProducts : List Item) : List WriteReq :=
  newProducts.enum.foldl
    (fun acc p =>
      acc ++ [cellReq ITEM_MASTER_LIST_COL (insertionRow + p.1) (Val.s p.2.name),
        rowReq colIdx (insertionRow + p.1) (colIdx + COLUMNS_PER_SUPPLIER - 1)
          (itemRowVals p.2)])
    []

/-- Summary writes against a recovered (shifted) summary-row map: one value
cell per label present in the map. -/
def summaryReqsFromMap (priceCol : ℕ) (sm : List (String × ℕ))
    (items : List (String × Val)) : List WriteReq :=
  items.filterMap (fun lv => (lookupStr sm lv.1).map (fun r => cellReq priceCol r lv.2))

/-- Fresh summary writes: label in the master-list column and value in the
supplier's total column, seven consecutive rows. -/
def summaryReqsFresh (priceCol summaryRow : ℕ) (items : List (String × Val)) :
    List WriteReq :=
  items.enum.foldl
    (fun acc p =>
      acc ++ [cellReq ITEM_MASTER_LIST_COL (summaryRow + p.1) (Val.s p.2.1),
        cellReq priceCol (summaryRow + p.1) p.2.2])
    []

/-- Everything update_excel_for_single_file computes and performs: the
return code, the scan results, the chosen block, the inserted rows and the
accumulated batch (the reserved-row blanking happens first, as its own
batch). -/
structure SingleResult where
  code : ℕ
  scanExisting : List (String × ℕ)
  scanSummary : List (String × ℕ)
  firstSummaryRow : ℤ
  colIdx : ℕ
  priceCol : ℕ
  newProducts : List Item
  insertionRow : ℕ
  insertedRows : ℕ
  shiftedSummary : List (String × ℕ)
  reserved : List WriteReq
  batch : List WriteReq
deriving DecidableEq

/-- update_excel_for_single_file (excelOutput.py lines 475-634).  The
source also advances next_avail_col by one block when a fresh block is
claimed (line 520), but the single path never reads the pointer again, so
that dead update is not recorded here. -/
def update_excel_for_single_file (grid : Grid) (data : QuoteData) : SingleResult :=
  let reserved := ensureFirstThreeRowsReqs
  let st := scanGrid grid
  let suppliers := existingSuppliers grid
  let nextAvail := find_next_available_column grid
  if data.products.isEmpty then
    ⟨0, st.existing, st.summap, st.first, 0, 0, [], 0, 0, st.summap, reserved, []⟩
  else
    let products := data.products.map
      (fun p => if p.name ≠ "" then { p with name := clean_product_name p.name } else p)
    let colIdx := (lookupStr suppliers data.company).getD nextAvail
    let header := headerReqs colIdx data
    let mres := match_products_smart products (st.existing.map (fun e => RefItem.mk e.1))
    let matched := matchedReqs colIdx st.existing mres.matchedItems
    let newProducts := newProductsOf st.existing mres.uniqueItems
    let insertionRow :=
      if st.first > 0 then st.first.toNat else HEADER_ROW + 1 + st.existing.length
    let shifted :=
      if ¬ newProducts.isEmpty ∧ st.first > 0 then
        st.summap.map (fun p => (p.1, p.2 + newProducts.length))
      else st.summap
    let prodReqs :=
      if newProducts.isEmpty then [] else newProductReqs colIdx insertionRow newProducts
    let priceCol := colIdx + COLUMNS_PER_SUPPLIER - 1
    let sumReqs :=
      if ¬ shifted.isEmpty then summaryReqsFromMap priceCol shifted (summaryItems data)
      else summaryReqsFresh priceCol (insertionRow + newProducts.length + 2) (summaryItems data)
    ⟨1, st.existing, st.summap, st.first, colIdx, priceCol, newProducts, insertionRow,
      (if newProducts.isEmpty then 0 else newProducts.length), shifted, reserved,
      header ++ matched ++ prodReqs ++ sumReqs⟩

/-! ### Multi-document path (excelOutput.py lines 636-780) -/

/-- The in-memory state threaded across documents: existing products with
rows, supplier column map, and the next free column pointer. -/
structure MultiState where
  existing : List (String × ℕ)
  suppliers : List (String × ℕ)
  nextAvail : ℕ
deriving DecidableEq, Inhabited

/-- What processing one document produces: the reference names handed to
the matcher, the appended product rows, the chosen block, the insertion
point and count, and the batch. -/
structure DocOut where
  refNames : List String
  newRows : List (String × ℕ)
  colIdx : ℕ
  insertAt : ℕ
  insertedRows : ℕ
  batch : List WriteReq
deriving DecidableEq, Inhabited

/-- One row of the multi-path product scan (summary labels skipped,
excelOutput.py lines 645-650). -/
def scanMultiStep (ex : List (String × ℕ)) (idx : ℕ) (row : List String) :
    List (String × ℕ) :=
  if 2 ≤ row.length ∧ pystrip (row.getD (ITEM_MASTER_LIST_COL - 1) "") ≠ "" then
    let cell := pystrip (row.getD (ITEM_MASTER_LIST_COL - 1) "")
    if cell ∈ SUMMARY_LABELS then ex
    else ex ++ [(clean_product_name cell, idx)]
  else ex

def scanMultiFrom : List (String × ℕ) → ℕ → List (List String) → List (String × ℕ)
  | ex, _, [] => ex
  | ex, idx, r :: rs => scanMultiFrom (scanMultiStep ex idx r) (idx + 1) rs

def scanGridMulti (grid : Grid) : List (String × ℕ) :=
  scanMultiFrom [] (HEADER_ROW + 1) (grid.drop HEADER_ROW)

/-- existing_suppliers of the multi path (excelOutput.py lines 652-663). -/
def existingSuppliersMulti (grid : Grid) : List (String × ℕ) :=
  let headerRowValues := grid.headD []
  (rangeStep (ITEM_MASTER_LIST_COL + 1) (headerRowValues.length + 1)
      COLUMNS_PER_SUPPLIER).foldl
    (fun m colIdx =>
      let supplierName :=
        if colIdx - 1 < headerRowValues.length then
          pystrip (headerRowValues.getD (colIdx - 1) "")
        else ""
      if supplierName ≠ "" then insertPy m supplierName colIdx else m)
    []

/-- The body of the per-document loop of update_excel_with_multiple_files
(excelOutput.py lines 667-778): a record with no products is skipped;
otherwise the supplier block is resolved (advancing the free pointer when a
fresh block is claimed), the matcher runs against the in-memory existing
products, new products are appended both to the sheet and to the in-memory
list, and a fresh summary block is written below everything. -/
def multiStep (s : MultiState) (data : QuoteData) : MultiState × Option DocOut :=
  if data.products.isEmpty then (s, none)
  else
    let products := data.products.map
      (fun p => if p.name ≠ "" then { p with name := clean_product_name p.name } else p)
    let colIdx := (lookupStr s.suppliers data.company).getD s.nextAvail
    let nextAvail' :=
      if colIdx = s.nextAvail then s.nextAvail + COLUMNS_PER_SUPPLIER else s.nextAvail
    let header := headerReqs colIdx data
    let mres := match_products_smart products (s.existing.map (fun e => RefItem.mk e.1))
    let matched := matchedReqs colIdx s.existing mres.matchedItems
    let newProducts := newProductsOf s.existing mres.uniqueItems
    let nextRow := HEADER_ROW + 1 + s.existing.length
    let prodReqs :=
      if newProducts.isEmpty then [] else newProductReqs colIdx nextRow newProducts
    let newRows := newProducts.enum.map (fun p => (p.2.name, nextRow + p.1))
    let existing' := s.existing ++ newRows
    let summaryRow := HEADER_ROW + 1 + existing'.length + 2
    let sumReqs :=
      summaryReqsFresh (colIdx + COLUMNS_PER_SUPPLIER - 1) summaryRow (summaryItems data)
    let suppliers' :=
      if (lookupStr s.suppliers data.company).isNone then
        insertPy s.suppliers data.company colIdx
      else s.suppliers
    (⟨existing', suppliers', nextAvail'⟩,
     some ⟨s.existing.map Prod.fst, newRows, colIdx, nextRow, newProducts.length,
       header ++ matched ++ prodReqs ++ sumReqs⟩)

def multiRun : MultiState → List QuoteData → MultiState × List (Option DocOut)
  | s, [] => (s, [])
  | s, d :: rest =>
    ((multiRun (multiStep s d).1 rest).1,
     (multiStep s d).2 :: (multiRun (multiStep s d).1 rest).2)

/-- update_excel_with_multiple_files for two or more records (a singleton
list is routed to update_excel_for_single_file at lines 637-638; this
definition is the body of the multi-record branch): the initial in-memory
state is scanned once from the grid, then the documents fold through
multiStep. -/
def update_excel_with_multiple_files (grid : Grid) (docs : List QuoteData) :
    MultiState × List (Option DocOut) :=
  multiRun
    ⟨scanGridMulti grid, existingSuppliersMulti grid, find_next_available_column grid⟩
    docs

/-! ### Lemmas about stripping -/

theorem dropWhile_dropWhile_same {α} (p : α → Bool) (l : List α) :
    (l.dropWhile p).dropWhile p = l.dropWhile p := by
  induction l with
  | nil => rfl
  | cons a t ih =>
    by_cases h : p a
    · simp [List.dropWhile_cons, h, ih]
    · simp [List.dropWhile_cons, h]

theorem dropWhile_append_self {α} {p : α → Bool} {a b : List α}
    (h : (a ++ b).dropWhile p = a ++ b) : a.dropWhile p = a := by
  cases a with
  | nil => rfl
  | cons c t =>
    rw [List.cons_append, List.dropWhile_cons] at h
    by_cases hc : p c
    · exfalso
      rw [if_pos hc] at h
      have hle : ((t ++ b).dropWhile p).length ≤ (t ++ b).length :=
        (List.dropWhile_suffix p).sublist.length_le
      rw [h] at hle
      simp at hle
    · rw [List.dropWhile_cons, if_neg hc]

theorem pyStripL_trail (l : List Char) :
    (pyStripL l).reverse.dropWhile isPySpace = (pyStripL l).reverse := by
  unfold pyStripL
  rw [List.reverse_reverse]
  exact dropWhile_dropWhile_same _ _

theorem pyStripL_lead (l : List Char) :
    (pyStripL l).dropWhile isPySpace = (pyStripL l) := by
  unfold pyStripL
  obtain ⟨t, ht⟩ :=
    List.dropWhile_suffix (l := (l.dropWhile isPySpace).reverse) isPySpace
  have hA : (l.dropWhile isPySpace).dropWhile isPySpace = l.dropWhile isPySpace :=
    dropWhile_dropWhile_same _ _
  have hrw : l.dropWhile isPySpace
      = ((l.dropWhile isPySpace).reverse.dropWhile isPySpace).reverse ++ t.reverse := by
    have := congrArg List.reverse ht
    simpa using this.symm
  rw [hrw] at hA
  exact dropWhile_append_self hA

theorem pyStripL_fixed {l : List Char}
    (h1 : l.dropWhile isPySpace = l)
    (h2 : l.reverse.dropWhile isPySpace = l.reverse) :
    pyStripL l = l := by
  unfold pyStripL
  rw [h1, h2, List.reverse_reverse]

theorem pyStripL_idem (l : List Char) : pyStripL (pyStripL l) = pyStripL l :=
  pyStripL_fixed (pyStripL_lead l) (pyStripL_trail l)

theorem ordMarker_suffix {l r : List Char} (h : ordMarker l = some r) :
    r <:+ l := by
  unfold ordMarker at h
  by_cases hds : ((l.dropWhile isPySpace).takeWhile isAsciiDigit).isEmpty
  · simp [hds] at h
  · rw [if_neg hds] at h
    rcases hl2 : (l.dropWhile isPySpace).dropWhile isAsciiDigit with _ | ⟨c, rest⟩
    · rw [hl2] at h; exact absurd h (by simp)
    · rw [hl2] at h
      dsimp only at h
      by_cases hc : isOrdPunct c
      · rw [if_pos hc] at h
        have h1 : r = rest.dropWhile isPySpace := by
          simpa using h.symm
        have s1 : r <:+ rest := h1 ▸ List.dropWhile_suffix _
        have s2 : rest <:+ c :: rest := List.suffix_cons _ _
        have s3 : (c :: rest) <:+ l.dropWhile isPySpace :=
          hl2 ▸ List.dropWhile_suffix _
        exact ((s1.trans s2).trans s3).trans (List.dropWhile_suffix _)
      · rw [if_neg hc] at h; exact absurd h (by simp)

theorem ordMarker_noLead {l r : List Char} (h : ordMarker l = some r) :
    r.dropWhile isPySpace = r := by
  unfold ordMarker at h
  by_cases hds : ((l.dropWhile isPySpace).takeWhile isAsciiDigit).isEmpty
  · simp [hds] at h
  · rw [if_neg hds] at h
    rcases hl2 : (l.dropWhile isPySpace).dropWhile isAsciiDigit with _ | ⟨c, rest⟩
    · rw [hl2] at h; exact absurd h (by simp)
    · rw [hl2] at h
      dsimp only at h
      by_cases hc : isOrdPunct c
      · rw [if_pos hc] at h
        have h1 : r = rest.dropWhile isPySpace := by
          simpa using h.symm
        rw [h1]; exact dropWhile_dropWhile_same _ _
      · rw [if_neg hc] at h; exact absurd h (by simp)

theorem pyStripL_stripOrdMarker (l : List Char) :
    pyStripL (stripOrdMarker (pyStripL l)) = stripOrdMarker (pyStripL l) := by
  cases h : ordMarker (pyStripL l) with
  | none =>
    simp only [stripOrdMarker, h, Option.getD_none]
    exact pyStripL_idem l
  | some r =>
    simp only [stripOrdMarker, h, Option.getD_some]
    apply pyStripL_fixed (ordMarker_noLead h)
    obtain ⟨t, ht⟩ := ordMarker_suffix h
    have hrev : (pyStripL l).reverse = r.reverse ++ t.reverse := by
      have := congrArg List.reverse ht
      simpa using this.symm
    have htr := pyStripL_trail l
    rw [hrev] at htr
    exact dropWhile_append_self htr

theorem toList_clean_product_name (s : String) (h : s ≠ "") :
    (clean_product_name s).toList = stripOrdMarker (pyStripL s.toList) := by
  unfold clean_product_name
  rw [if_neg h]
  rfl

theorem clean_product_name_fixed {t : String} (h1 : t ≠ "")
    (h2 : ordMarker t.toList = none)
    (h3 : pyStripL t.toList = t.toList) :
    clean_product_name t = t := by
  unfold clean_product_name
  rw [if_neg h1, h3]
  unfold stripOrdMarker
  rw [h2, Option.getD_none]
  rfl

/-! ### Claim C3 -/

/-- C3 counterexample: the leading-ordinal stripper is not idempotent on all
strings.  A whitespace-only name cleans to the empty string, whose cleaning
is the sentinel; a name with two stacked ordinal markers loses one marker
per application. -/
theorem C3_counterexample :
    clean_product_name (clean_product_name " ") ≠ clean_product_name " " ∧
    clean_product_name (clean_product_name "1. 2. Apple")
      ≠ clean_product_name "1. 2. Apple" := by
  constructor <;> decide

/-- C3 (amended): clean_product_name is idempotent on every string whose
cleaned form is non-empty and carries no further leading ordinal marker. -/
theorem C3_clean_product_name_idem (s : String)
    (h1 : clean_product_name s ≠ "")
    (h2 : ordMarker (clean_product_name s).toList = none) :
    clean_product_name (clean_product_name s) = clean_product_name s := by
  apply clean_product_name_fixed h1 h2
  by_cases hs : s = ""
  · subst hs
    decide
  · rw [toList_clean_product_name s hs]
    exact pyStripL_stripOrdMarker s.toList

/-- C3 witness: a concrete name on which the amended idempotence applies. -/
theorem C3_witness :
    clean_product_name "1. Widget" ≠ "" ∧
    ordMarker (clean_product_name "1. Widget").toList = none ∧
    clean_product_name (clean_product_name "1. Widget")
      = clean_product_name "1. Widget" :=
  ⟨by decide, by decide, C3_clean_product_name_idem "1. Widget" (by decide) (by decide)⟩

/-! ### Validator lemmas and claims C2, C7 -/

theorem mkVProduct_quantity_pos (n : String) (pkvs : List (String × JVal)) :
    0 < (mkVProduct n pkvs).quantity := by
  simp only [mkVProduct]
  split
  · norm_num
  · next h => exact lt_of_not_le h

theorem mkVProduct_unit_truthy (n : String) (pkvs : List (String × JVal)) :
    (mkVProduct n pkvs).unit.truthy = true := by
  simp only [mkVProduct]
  split
  · next h => exact h
  · decide

theorem vProductOfVal_ok_of_safe (pv : JVal) (h : safeProductVal pv = true) :
    ∃ p, vProductOfVal pv = Except.ok p ∧ 0 < p.quantity ∧ p.unit.truthy = true := by
  cases pv with
  | obj pkvs =>
    simp only [vProductOfVal, vProductOfObj]
    simp only [safeProductVal] at h
    cases hn : lookupStr pkvs "name" with
    | none =>
      simp only [hn, Option.getD_none]
      refine ⟨mkVProduct (clean_product_name "Unknown Product") pkvs, ?_,
        mkVProduct_quantity_pos _ _, mkVProduct_unit_truthy _ _⟩
      simp [JVal.truthy]
    | some n =>
      rw [hn] at h
      simp only [hn, Option.getD_some]
      by_cases ht : n.truthy = true
      · simp only [safeNameOpt, ht, Bool.not_true, Bool.false_or] at h
        cases n with
        | str s =>
          refine ⟨mkVProduct (clean_product_name s) pkvs, ?_,
            mkVProduct_quantity_pos _ _, mkVProduct_unit_truthy _ _⟩
          simp [ht]
        | null => simp at h
        | bool b => simp at h
        | num q => simp at h
        | arr xs => simp at h
        | obj kvs2 => simp at h
      · simp only [Bool.not_eq_true] at ht
        refine ⟨mkVProduct (clean_product_name "Unknown Product") pkvs, ?_,
          mkVProduct_quantity_pos _ _, mkVProduct_unit_truthy _ _⟩
        simp [ht]
  | null => simp [safeProductVal] at h
  | bool b => simp [safeProductVal] at h
  | num q => simp [safeProductVal] at h
  | str s => simp [safeProductVal] at h
  | arr xs => simp [safeProductVal] at h

theorem mapM_vProduct_ok {xs : List JVal} (h : xs.all safeProductVal = true) :
    ∃ ps, xs.mapM vProductOfVal = Except.ok ps ∧
      ∀ p ∈ ps, 0 < p.quantity ∧ p.unit.truthy = true := by
  induction xs with
  | nil => exact ⟨[], by rfl, by simp⟩
  | cons x rest ih =>
    rw [List.all_cons, Bool.and_eq_true] at h
    obtain ⟨p, hp, hq, hu⟩ := vProductOfVal_ok_of_safe x h.1
    obtain ⟨ps, hps, hall⟩ := ih h.2
    refine ⟨p :: ps, ?_, ?_⟩
    · rw [List.mapM_cons, hp, hps]; rfl
    · intro q hq'
      rcases List.mem_cons.mp hq' with rfl | hmem
      · exact ⟨hq, hu⟩
      · exact hall q hmem

/-- C2 counterexample: validate_json_data is not total on arbitrary inputs,
and a surviving product can end with an empty name.  A truthy non-dict makes
Python raise AttributeError on .get, and the product name consisting only of
an ordinal marker is cleaned to the empty string. -/
theorem C2_counterexample :
    (validate_json_data (JVal.num 5)).map (fun r => r.products.length)
        = Except.error "AttributeError" ∧
    (validate_json_data
        (JVal.obj [("products", JVal.arr [JVal.obj [("name", JVal.str "1.")]])])).map
        (fun r => r.products.map VProduct.name)
      = Except.ok [""] :=
  ⟨rfl, rfl⟩

/-- C2 (amended): on every falsy input and on every dict input whose truthy
products field is a list of dicts with string-or-falsy names, the validator
returns without raising, and in the result every product has quantity > 0
and a truthy unit; all money fields are rationals by construction.  Product
names can be empty when the input name consists only of an ordinal marker
or whitespace. -/
theorem C2_validate_total (v : JVal) (h : safeInput v = true) :
    ∃ r, validate_json_data v = Except.ok r ∧
      ∀ p ∈ r.products, 0 < p.quantity ∧ p.unit.truthy = true := by
  by_cases hv : v.truthy = false
  · refine ⟨vDefaultRecord, ?_, ?_⟩
    · unfold validate_json_data; rw [if_pos hv]
    · intro p hp; simp [vDefaultRecord] at hp
  · cases v with
    | obj kvs =>
      have htr : (JVal.obj kvs).truthy = true := by
        cases hb : (JVal.obj kvs).truthy with
        | false => exact absurd hb hv
        | true => rfl
      simp only [safeInput, htr, Bool.true_eq_false, if_false] at h
      have hprod : ∃ xs, prodValsOf kvs = Except.ok xs ∧ xs.all safeProductVal = true := by
        unfold prodValsOf
        cases hl : lookupStr kvs "products" with
        | none => exact ⟨[], rfl, rfl⟩
        | some p =>
          rw [hl] at h
          simp only [safeProductsOpt] at h
          by_cases hpt : p.truthy = true
          · rw [hpt] at h
            simp only [Bool.not_true, Bool.false_or] at h
            cases p with
            | arr xs =>
              exact ⟨xs, by simp [prodValsOfOpt, hpt], by simpa [safeProducts] using h⟩
            | null => simp [safeProducts] at h
            | bool b => simp [safeProducts] at h
            | num q => simp [safeProducts] at h
            | str s => simp [safeProducts] at h
            | obj kvs2 => simp [safeProducts] at h
          · simp only [Bool.not_eq_true] at hpt
            exact ⟨[], by simp [prodValsOfOpt, hpt], rfl⟩
      obtain ⟨xs, hxs, hsafe⟩ := hprod
      obtain ⟨ps, hps, hall⟩ := mapM_vProduct_ok hsafe
      refine ⟨assembleRecord kvs ps, ?_, ?_⟩
      · unfold validate_json_data
        rw [if_neg hv]
        show finishValidate kvs (validateProducts (prodValsOf kvs))
          = Except.ok (assembleRecord kvs ps)
        rw [hxs]
        simp only [validateProducts]
        rw [hps]
        rfl
      · intro p hp
        exact hall p hp
    | null => exact absurd rfl hv
    | bool b =>
      cases b with
      | false => exact absurd rfl hv
      | true => simp [safeInput, JVal.truthy] at h
    | num q => simp [safeInput, hv, if_false] at h
    | str s => simp [safeInput, hv, if_false] at h
    | arr xs => simp [safeInput, hv, if_false] at h

/-- C2 witness: a concrete well-shaped input on which the amended totality
theorem applies. -/
theorem C2_witness :
    safeInput (JVal.obj [("company", JVal.str "ACME"),
        ("products", JVal.arr
          [JVal.obj [("name", JVal.str "2) Table"), ("quantity", JVal.str "3")]])]) = true ∧
    ∃ r, validate_json_data (JVal.obj [("company", JVal.str "ACME"),
        ("products", JVal.arr
          [JVal.obj [("name", JVal.str "2) Table"), ("quantity", JVal.str "3")]])])
        = Except.ok r ∧
      ∀ p ∈ r.products, 0 < p.quantity ∧ p.unit.truthy = true :=
  ⟨by decide, C2_validate_total _ (by decide)⟩

/-- C7: quantities [2, 3] with unit prices [10, 5] and no totalPrice fields
anywhere give item totals [20, 15], subtotal 35, VAT round(35 * 0.07, 2)
= 2.45 and grand total round(35 + 2.45, 2) = 37.45. -/
theorem C7_default_arithmetic :
    ((validate_json_data (JVal.obj [("products", JVal.arr
        [JVal.obj [("name", JVal.str "A"), ("quantity", JVal.num 2),
                   ("pricePerUnit", JVal.num 10)],
         JVal.obj [("name", JVal.str "B"), ("quantity", JVal.num 3),
                   ("pricePerUnit", JVal.num 5)]])])).toOption).map
        (fun r => (r.products.map VProduct.totalPrice,
          r.totalPrice, r.totalVat, r.totalPriceIncludeVat))
      = some ([20, 15], (35 : ℚ), (2.45 : ℚ), (37.45 : ℚ)) := by decide

/-! ### Matcher lemmas and claims C1, C6, C8 -/

theorem lookupStr_mem {α} {m : List (String × α)} {k : String} {v : α}
    (h : lookupStr m k = some v) : (k, v) ∈ m := by
  induction m with
  | nil => simp [lookupStr] at h
  | cons p rest ih =>
    obtain ⟨k', v'⟩ := p
    simp only [lookupStr] at h
    by_cases hk : k' = k
    · rw [if_pos hk] at h
      subst hk
      cases h
      exact List.mem_cons_self _ _
    · rw [if_neg hk] at h
      exact List.mem_cons_of_mem _ (ih h)

theorem mem_insertPy_val {α} {m : List (String × α)} {k : String} {v : α}
    {p : String × α} (h : p ∈ insertPy m k v) : p.2 = v ∨ p ∈ m := by
  induction m with
  | nil =>
    simp only [insertPy, List.mem_singleton] at h
    subst h
    exact Or.inl rfl
  | cons q rest ih =>
    obtain ⟨k', v'⟩ := q
    simp only [insertPy] at h
    by_cases hk : k' = k
    · rw [if_pos hk] at h
      rcases List.mem_cons.mp h with rfl | hm
      · exact Or.inl rfl
      · exact Or.inr (List.mem_cons_of_mem _ hm)
    · rw [if_neg hk] at h
      rcases List.mem_cons.mp h with rfl | hm
      · exact Or.inr (List.mem_cons_self _ _)
      · rcases ih hm with hv | hp
        · exact Or.inl hv
        · exact Or.inr (List.mem_cons_of_mem _ hp)

theorem refNormMap_val_mem {refs : List RefItem} :
    ∀ p ∈ refNormMap refs, ∃ r ∈ refs, p.2 = r.name := by
  have key : ∀ (refs : List RefItem) (m : List (String × String)),
      ∀ p ∈ refs.foldl (fun m r => insertPy m (normalize_text r.name) r.name) m,
        (∃ r ∈ refs, p.2 = r.name) ∨ p ∈ m := by
    intro refs
    induction refs with
    | nil => intro m p hp; exact Or.inr hp
    | cons r rest ih =>
      intro m p hp
      simp only [List.foldl_cons] at hp
      rcases ih _ p hp with ⟨r', hr', he⟩ | hm
      · exact Or.inl ⟨r', List.mem_cons_of_mem _ hr', he⟩
      · rcases mem_insertPy_val hm with hv | hp'
        · exact Or.inl ⟨r, List.mem_cons_self _ _, hv⟩
        · exact Or.inr hp'
  intro p hp
  rcases key refs [] p hp with h | h
  · exact h
  · simp at h

theorem matchLoop_names {normMap : List (String × String)}
    {dimsMap : List (String × Dims)} {ts : List Item} :
    ∀ x ∈ (matchLoop normMap dimsMap ts).matchedItems, ∃ p ∈ normMap, x.name = p.2 := by
  induction ts with
  | nil => intro x hx; simp [matchLoop] at hx
  | cons item rest ih =>
    intro x hx
    simp only [matchLoop] at hx
    cases hl : lookupStr normMap (normalize_text (pystrip item.name)) with
    | some orig =>
      rw [hl] at hx
      rcases List.mem_cons.mp hx with rfl | hm
      · exact ⟨(normalize_text (pystrip item.name), orig), lookupStr_mem hl, rfl⟩
      · exact ih x hm
    | none =>
      rw [hl] at hx
      cases hb : normMap.findSome? (fun p =>
          if dims_close (parse_dimensions (pystrip item.name))
                ((lookupStr dimsMap p.1).getD default) &&
              semantic_compatible (pystrip item.name) p.2 then some p.2 else none) with
      | some best =>
        rw [hb] at hx
        rcases List.mem_cons.mp hx with rfl | hm
        · obtain ⟨p, hp, hf⟩ := List.exists_of_findSome?_eq_some hb
          refine ⟨p, hp, ?_⟩
          by_cases hc : (dims_close (parse_dimensions (pystrip item.name))
              ((lookupStr dimsMap p.1).getD default) &&
              semantic_compatible (pystrip item.name) p.2) = true
          · rw [hc] at hf
            simp at hf
            simp [mkMatched, hf]
          · rw [Bool.not_eq_true] at hc
            rw [hc] at hf
            simp at hf
        · exact ih x hm
      | none =>
        rw [hb] at hx
        exact ih x hx

theorem matchLoop_length {normMap : List (String × String)}
    {dimsMap : List (String × Dims)} (ts : List Item) :
    (matchLoop normMap dimsMap ts).matchedItems.length
      + (matchLoop normMap dimsMap ts).uniqueItems.length = ts.length := by
  induction ts with
  | nil => rfl
  | cons item rest ih =>
    simp only [matchLoop]
    cases hl : lookupStr normMap (normalize_text (pystrip item.name)) with
    | some orig => simpa using by omega
    | none =>
      cases hb : normMap.findSome? (fun p =>
          if dims_close (parse_dimensions (pystrip item.name))
                ((lookupStr dimsMap p.1).getD default) &&
              semantic_compatible (pystrip item.name) p.2 then some p.2 else none) with
      | some best => simpa using by omega
      | none => simpa using by omega

/-- C1 counterexample: with two identical targets and one reference, the
exact-match branch emits the same reference name twice — the matcher has no
consumption tracking, so the one-reference-once invariant fails. -/
theorem C1_counterexample :
    ((match_products_smart
        [⟨"Widget", 1, "pcs", 10, 10⟩, ⟨"Widget", 2, "pcs", 10, 20⟩]
        [⟨"Widget"⟩]).matchedItems.map Item.name = ["Widget", "Widget"]) ∧
    ¬ ((match_products_smart
        [⟨"Widget", 1, "pcs", 10, 10⟩, ⟨"Widget", 2, "pcs", 10, 20⟩]
        [⟨"Widget"⟩]).matchedItems.map Item.name).Nodup := by
  exact ⟨by decide, by decide⟩

/-- C1 (amended): every matched item carries the name of some reference, and
each target contributes at most one output item, so matched plus unique
counts equal the target count; but the same reference name may be emitted
for several targets — nothing marks a reference as consumed. -/
theorem C1_matched_names_of_refs (targets : List Item) (refs : List RefItem) :
    ((match_products_smart targets refs).matchedItems.length
      + (match_products_smart targets refs).uniqueItems.length = targets.length) ∧
    ∀ m ∈ (match_products_smart targets refs).matchedItems,
      ∃ r ∈ refs, m.name = r.name := by
  constructor
  · exact matchLoop_length targets
  · intro m hm
    obtain ⟨p, hp, he⟩ := matchLoop_names m hm
    obtain ⟨r, hr, hv⟩ := refNormMap_val_mem p hp
    exact ⟨r, hr, he.trans hv⟩

/-- C6 counterexample: the first asserted pair is not close under the code.
Normalization strips the leading "4." of "4.672x0.97 m" as an ordinal
marker, leaving 672x0.97 m, whose converted tuple [970, 672000] is far from
[970, 4672]. -/
theorem C6_counterexample :
    dims_close (parse_dimensions "4672x970 mm") (parse_dimensions "4.672x0.97 m")
      = false := by
  decide

/-- C6 (amended): the meters-to-millimeters conversion does make the pair
close when the dimension does not open the name (no ordinal stripping), as
in "ขนาด 4.672x0.97 ม."; the 28mm pair is close within max(5, 2%) and the
328mm pair is not, exactly as claimed. -/
theorem C6_dimension_tolerance :
    dims_close (parse_dimensions "4672x970 mm")
        (parse_dimensions "ขนาด 4.672x0.97 ม.") = true ∧
    dims_close (parse_dimensions "4672x970 mm") (parse_dimensions "4700x970mm") = true ∧
    dims_close (parse_dimensions "4672x970 mm") (parse_dimensions "5000x970mm") = false := by
  exact ⟨by decide, by decide, by decide⟩

/-- C8: an empty target list yields two empty outputs for any references;
an empty reference list leaves every target unique, in order. -/
theorem C8_match_degenerate :
    (∀ refs : List RefItem, match_products_smart [] refs = ⟨[], []⟩) ∧
    (∀ targets : List Item, match_products_smart targets [] = ⟨[], targets⟩) := by
  constructor
  · intro refs; rfl
  · intro targets
    show matchLoop [] (refDimsMap []) targets = ⟨[], targets⟩
    induction targets with
    | nil => rfl
    | cons item rest ih =>
      simp only [matchLoop, ih, lookupStr, List.findSome?_nil]

/-! ### Association-list lemmas for the grid engine -/

theorem mem_insertPy {α} {m : List (String × α)} {k : String} {v : α}
    {p : String × α} (h : p ∈ insertPy m k v) : p = (k, v) ∨ p ∈ m := by
  induction m with
  | nil =>
    simp only [insertPy, List.mem_singleton] at h
    exact Or.inl h
  | cons q rest ih =>
    obtain ⟨k', v'⟩ := q
    simp only [insertPy] at h
    by_cases hk : k' = k
    · rw [if_pos hk] at h
      rcases List.mem_cons.mp h with rfl | hm
      · exact Or.inl rfl
      · exact Or.inr (List.mem_cons_of_mem _ hm)
    · rw [if_neg hk] at h
      rcases List.mem_cons.mp h with rfl | hm
      · exact Or.inr (List.mem_cons_self _ _)
      · rcases ih hm with he | hp
        · exact Or.inl he
        · exact Or.inr (List.mem_cons_of_mem _ hp)

theorem insertPy_ne_nil {α} (m : List (String × α)) (k : String) (v : α) :
    insertPy m k v ≠ [] := by
  cases m with
  | nil => simp [insertPy]
  | cons q rest =>
    obtain ⟨k', v'⟩ := q
    simp only [insertPy]
    split <;> simp

theorem keys_insertPy {α} (m : List (String × α)) (k : String) (v : α) {q : String}
    (h : q ∈ (insertPy m k v).map Prod.fst) : q = k ∨ q ∈ m.map Prod.fst := by
  obtain ⟨p, hp, he⟩ := List.mem_map.mp h
  rcases mem_insertPy hp with rfl | hm
  · exact Or.inl he.symm
  · exact Or.inr (List.mem_map.mpr ⟨p, hm, he⟩)

theorem keys_nodup_insertPy {α} {m : List (String × α)} (k : String) (v : α)
    (h : (m.map Prod.fst).Nodup) : ((insertPy m k v).map Prod.fst).Nodup := by
  induction m with
  | nil => simp [insertPy]
  | cons q rest ih =>
    obtain ⟨k', v'⟩ := q
    simp only [insertPy]
    rw [List.map_cons, List.nodup_cons] at h
    by_cases hk : k' = k
    · rw [if_pos hk]
      rw [List.map_cons, List.nodup_cons]
      exact ⟨hk ▸ h.1, h.2⟩
    · rw [if_neg hk]
      rw [List.map_cons, List.nodup_cons]
      refine ⟨?_, ih h.2⟩
      intro hmem
      rcases keys_insertPy rest k v hmem with he | hm
      · exact hk he
      · exact h.1 hm

theorem lookupStr_of_mem_nodup {α} {m : List (String × α)} {k : String} {v : α}
    (hm : (k, v) ∈ m) (hnd : (m.map Prod.fst).Nodup) : lookupStr m k = some v := by
  induction m with
  | nil => simp at hm
  | cons q rest ih =>
    obtain ⟨k', v'⟩ := q
    rw [List.map_cons, List.nodup_cons] at hnd
    rcases List.mem_cons.mp hm with he | hmem
    · cases he
      simp [lookupStr]
    · have hk : k' ≠ k := by
        intro he
        subst he
        exact hnd.1 (List.mem_map.mpr ⟨(k', v), hmem, rfl⟩)
      simp only [lookupStr, if_neg hk]
      exact ih hmem hnd.2

/-! ### Scan invariants of the single-file path -/

/-- The summary-map invariant maintained by the scan: every key is one of
the seven labels, the keys are distinct, and the first-summary-row sentinel
is -1 exactly when no summary row has been recorded. -/
def ScanInv (st : ScanState) : Prop :=
  (∀ p ∈ st.summap, p.1 ∈ SUMMARY_LABELS) ∧
  (st.summap.map Prod.fst).Nodup ∧
  (st.first = -1 ↔ st.summap = [])

theorem scanStep_inv {st : ScanState} (idx : ℕ) (row : List String)
    (h : ScanInv st) : ScanInv (scanStep st idx row) := by
  simp only [scanStep]
  by_cases hrow : 2 ≤ row.length ∧ pystrip (row.getD (ITEM_MASTER_LIST_COL - 1) "") ≠ ""
  case neg => rw [if_neg hrow]; exact h
  case pos =>
    rw [if_pos hrow]
    by_cases hcell : pystrip (row.getD (ITEM_MASTER_LIST_COL - 1) "") ∈ SUMMARY_LABELS
    case neg => rw [if_neg hcell]; exact h
    case pos =>
      rw [if_pos hcell]
      refine ⟨?_, keys_nodup_insertPy _ _ h.2.1, ?_, ?_⟩
      · intro p hp
        rcases mem_insertPy hp with rfl | hm
        · exact hcell
        · exact h.1 p hm
      · intro hf
        exfalso
        have hf' : (if st.first = -1 then (idx : ℤ) else st.first) = -1 := hf
        by_cases h1 : st.first = -1
        · rw [if_pos h1] at hf'
          omega
        · rw [if_neg h1] at hf'
          exact h1 hf'
      · intro he
        exact absurd he (insertPy_ne_nil _ _ _)

theorem scanRowsFrom_inv :
    ∀ (rows : List (List String)) (st : ScanState) (idx : ℕ),
      ScanInv st → ScanInv (scanRowsFrom st idx rows) := by
  intro rows
  induction rows with
  | nil => intro st idx h; exact h
  | cons r rs ih =>
    intro st idx h
    exact ih _ _ (scanStep_inv idx r h)

theorem scanGrid_inv (grid : Grid) : ScanInv (scanGrid grid) :=
  scanRowsFrom_inv _ _ _ ⟨by simp, by simp, by simp⟩

theorem summary_label_has_item (data : QuoteData) {label : String}
    (h : label ∈ SUMMARY_LABELS) : ∃ v, (label, v) ∈ summaryItems data := by
  simp only [SUMMARY_LABELS, List.mem_cons, List.not_mem_nil, or_false] at h
  rcases h with rfl | rfl | rfl | rfl | rfl | rfl | rfl
  · exact ⟨Val.q data.totalPrice, by simp [summaryItems]⟩
  · exact ⟨Val.q data.totalVat, by simp [summaryItems]⟩
  · exact ⟨Val.q data.totalPriceIncludeVat, by simp [summaryItems]⟩
  · exact ⟨data.priceGuaranteeDay, by simp [summaryItems]⟩
  · exact ⟨data.deliveryTime, by simp [summaryItems]⟩
  · exact ⟨data.paymentTerms, by simp [summaryItems]⟩
  · exact ⟨data.otherNotes, by simp [summaryItems]⟩

/-! ### Claim C10 -/

/-- C10: the next free column is at least the first supplier column, its
offset from that column is a whole number of 4-column supplier blocks, and
it lies strictly beyond the last non-empty column of the first three rows. -/
theorem C10_next_column_block_aligned (grid : Grid) :
    ITEM_MASTER_LIST_COL + 1 ≤ find_next_available_column grid ∧
    (find_next_available_column grid - (ITEM_MASTER_LIST_COL + 1))
      % COLUMNS_PER_SUPPLIER = 0 ∧
    lastNonEmptyColInTopRows grid < find_next_available_column grid := by
  simp only [find_next_available_column, ITEM_MASTER_LIST_COL, COLUMNS_PER_SUPPLIER]
  by_cases h : lastNonEmptyColInTopRows grid < 2 + 1
  · rw [if_pos h]
    refine ⟨by norm_num, by norm_num, h⟩
  · rw [if_neg h]
    push_neg at h
    refine ⟨by omega, by omega, by omega⟩

/-! ### Claim C9 -/

/-- C9: a record with no products makes the single-file path return 0 with
an empty batch and no row insertion; only the reserved-row blanking of rows
1-3 is performed. -/
theorem C9_empty_record_skipped (grid : Grid) (data : QuoteData)
    (h : data.products = []) :
    (update_excel_for_single_file grid data).code = 0 ∧
    (update_excel_for_single_file grid data).batch = [] ∧
    (update_excel_for_single_file grid data).insertedRows = 0 ∧
    (update_excel_for_single_file grid data).reserved = ensureFirstThreeRowsReqs := by
  simp [update_excel_for_single_file, h]

/-- C9 witness: a concrete empty-products record on an empty grid. -/
theorem C9_witness :
    (⟨"Acme", "", [], 0, 0, 0, Val.q 0, Val.s "", Val.s "", Val.s ""⟩ :
        QuoteData).products = [] ∧
    (update_excel_for_single_file []
        ⟨"Acme", "", [], 0, 0, 0, Val.q 0, Val.s "", Val.s "", Val.s ""⟩).code = 0 ∧
    (update_excel_for_single_file []
        ⟨"Acme", "", [], 0, 0, 0, Val.q 0, Val.s "", Val.s "", Val.s ""⟩).batch = [] ∧
    (update_excel_for_single_file []
        ⟨"Acme", "", [], 0, 0, 0, Val.q 0, Val.s "", Val.s "", Val.s ""⟩).insertedRows = 0 ∧
    (update_excel_for_single_file []
        ⟨"Acme", "", [], 0, 0, 0, Val.q 0, Val.s "", Val.s "", Val.s ""⟩).reserved
      = ensureFirstThreeRowsReqs := by
  have h := C9_empty_record_skipped []
    ⟨"Acme", "", [], 0, 0, 0, Val.q 0, Val.s "", Val.s "", Val.s ""⟩ rfl
  exact ⟨rfl, h.1, h.2.1, h.2.2.1, h.2.2.2⟩

/-! ### Claim C5 -/

/-- C5: in the multi-document loop, the free-column pointer never decreases
(per step and over any run), a skipped document leaves the state unchanged,
and a processed document hands the matcher exactly the names of the
in-memory existing products and appends its new product rows to that list,
making them references for the next document. -/
theorem C5_multi_state_monotone :
    (∀ (s : MultiState) (d : QuoteData), s.nextAvail ≤ (multiStep s d).1.nextAvail) ∧
    (∀ (s : MultiState) (d : QuoteData), (multiStep s d).2 = none → (multiStep s d).1 = s) ∧
    (∀ (s : MultiState) (d : QuoteData) (out : DocOut), (multiStep s d).2 = some out →
      out.refNames = s.existing.map Prod.fst ∧
      (multiStep s d).1.existing = s.existing ++ out.newRows) ∧
    (∀ (s : MultiState) (docs : List QuoteData),
      s.nextAvail ≤ (multiRun s docs).1.nextAvail) := by
  have hstep : ∀ (s : MultiState) (d : QuoteData), s.nextAvail ≤ (multiStep s d).1.nextAvail := by
    intro s d
    cases h : d.products.isEmpty
    · simp only [multiStep, h, Bool.false_eq_true, if_false]
      split <;> simp
    · simp [multiStep, h]
  refine ⟨hstep, ?_, ?_, ?_⟩
  · intro s d h
    cases hp : d.products.isEmpty
    · simp only [multiStep, hp, Bool.false_eq_true, if_false] at h
      exact absurd h (by simp)
    · simp [multiStep, hp]
  · intro s d out h
    cases hp : d.products.isEmpty
    · simp only [multiStep, hp, Bool.false_eq_true, if_false] at h ⊢
      injection h with h2
      subst h2
      exact ⟨rfl, rfl⟩
    · simp only [multiStep, hp, if_true] at h
      exact absurd h (by simp)
  · intro s docs
    induction docs generalizing s with
    | nil => exact le_refl _
    | cons d rest ih =>
      simp only [multiRun]
      exact le_trans (hstep s d) (ih (multiStep s d).1)

/-- C5 witness: one concrete step on a state that already carries one
product row. -/
theorem C5_witness :
    (multiStep ⟨[("ProdA", 4)], [("AcmeCo", 3)], 7⟩
        ⟨"NewCo", "", [⟨"ProdB", 1, "ชิ้น", 10, 10⟩], 100, 7, 107,
          Val.q 0, Val.s "", Val.s "", Val.s ""⟩).2.isSome = true ∧
    ((multiStep ⟨[("ProdA", 4)], [("AcmeCo", 3)], 7⟩
        ⟨"NewCo", "", [⟨"ProdB", 1, "ชิ้น", 10, 10⟩], 100, 7, 107,
          Val.q 0, Val.s "", Val.s "", Val.s ""⟩).2.getD default).refNames = ["ProdA"] ∧
    (multiStep ⟨[("ProdA", 4)], [("AcmeCo", 3)], 7⟩
        ⟨"NewCo", "", [⟨"ProdB", 1, "ชิ้น", 10, 10⟩], 100, 7, 107,
          Val.q 0, Val.s "", Val.s "", Val.s ""⟩).1.existing
      = [("ProdA", 4)] ++
        ((multiStep ⟨[("ProdA", 4)], [("AcmeCo", 3)], 7⟩
          ⟨"NewCo", "", [⟨"ProdB", 1, "ชิ้น", 10, 10⟩], 100, 7, 107,
            Val.q 0, Val.s "", Val.s "", Val.s ""⟩).2.getD default).newRows := by
  have hsome : (multiStep ⟨[("ProdA", 4)], [("AcmeCo", 3)], 7⟩
      ⟨"NewCo", "", [⟨"ProdB", 1, "ชิ้น", 10, 10⟩], 100, 7, 107,
        Val.q 0, Val.s "", Val.s "", Val.s ""⟩).2
      = some ((multiStep ⟨[("ProdA", 4)], [("AcmeCo", 3)], 7⟩
      ⟨"NewCo", "", [⟨"ProdB", 1, "ชิ้น", 10, 10⟩], 100, 7, 107,
        Val.q 0, Val.s "", Val.s "", Val.s ""⟩).2.getD default) := by decide
  have h := C5_multi_state_monotone.2.2.1 _ _ _ hsome
  refine ⟨by decide, ?_, h.2⟩
  rw [h.1]
  decide

/-! ### Claim C4 -/

/-- C4: in the single-document path, when summary rows already existed
(first_summary_row > 0) and new product rows are inserted, the recorded
summary-row map is shifted down by exactly the inserted count, and every
recorded label's summary value is written at its shifted row in the
supplier's total column. -/
theorem C4_summary_rows_shifted (grid : Grid) (data : QuoteData)
    (label : String) (r : ℕ)
    (h1 : (update_excel_for_single_file grid data).firstSummaryRow > 0)
    (h2 : (update_excel_for_single_file grid data).newProducts ≠ [])
    (h3 : (label, r) ∈ (update_excel_for_single_file grid data).scanSummary) :
    (update_excel_for_single_file grid data).shiftedSummary
      = (update_excel_for_single_file grid data).scanSummary.map
          (fun p => (p.1, p.2 + (update_excel_for_single_file grid data).newProducts.length)) ∧
    ∃ v, (label, v) ∈ summaryItems data ∧
      cellReq (update_excel_for_single_file grid data).priceCol
          (r + (update_excel_for_single_file grid data).newProducts.length) v
        ∈ (update_excel_for_single_file grid data).batch := by
  cases hp : data.products.isEmpty
  case true =>
    exfalso
    apply h2
    simp [update_excel_for_single_file, hp]
  case false =>
    have hinv := scanGrid_inv grid
    simp only [update_excel_for_single_file, hp, Bool.false_eq_true, if_false] at h1 h2 h3 ⊢
    set st := scanGrid grid with hst
    set NP := newProductsOf st.existing
      (match_products_smart
        (data.products.map
          (fun p => if p.name ≠ "" then { p with name := clean_product_name p.name } else p))
        (st.existing.map (fun e => RefItem.mk e.1))).uniqueItems with hNP
    have hcond : ¬ NP.isEmpty ∧ st.first > 0 := by
      constructor
      · simpa [List.isEmpty_iff] using h2
      · exact h1
    have hsummap_ne : st.summap ≠ [] := by
      intro he
      have := hinv.2.2.mpr he
      omega
    have hshift :
        (if ¬ NP.isEmpty ∧ st.first > 0 then
          st.summap.map (fun p => (p.1, p.2 + NP.length))
        else st.summap) = st.summap.map (fun p => (p.1, p.2 + NP.length)) :=
      if_pos hcond
    rw [hshift]
    refine ⟨rfl, ?_⟩
    obtain ⟨v, hv⟩ := summary_label_has_item data (hinv.1 _ h3)
    refine ⟨v, hv, ?_⟩
    have hmapne : ¬ (st.summap.map (fun p => (p.1, p.2 + NP.length))).isEmpty = true := by
      simp [List.isEmpty_iff, hsummap_ne]
    rw [if_pos hmapne]
    apply List.mem_append_right
    apply List.mem_filterMap.mpr
    refine ⟨(label, v), hv, ?_⟩
    have hnd : ((st.summap.map (fun p => (p.1, p.2 + NP.length))).map Prod.fst).Nodup := by
      have : (st.summap.map (fun p => (p.1, p.2 + NP.length))).map Prod.fst
          = st.summap.map Prod.fst := by
        rw [List.map_map]
        rfl
      rw [this]
      exact hinv.2.1
    have hmem : (label, r + NP.length) ∈ st.summap.map (fun p => (p.1, p.2 + NP.length)) :=
      List.mem_map.mpr ⟨(label, r), h3, rfl⟩
    rw [lookupStr_of_mem_nodup hmem hnd]
    rfl

/-- C4 witness: a concrete grid with one product row and one summary row,
and a record contributing one new product; the recorded summary row 5 is
written at row 6. -/
theorem C4_witness :
    (update_excel_for_single_file
        [["", "", "AcmeCo"], [], [], ["", "ProdA"], ["", "รวมเป็นเงิน"]]
        ⟨"NewCo", "", [⟨"ProdB", 1, "ชิ้น", 10, 10⟩], 100, 7, 107,
          Val.q 0, Val.s "", Val.s "", Val.s ""⟩).firstSummaryRow > 0 ∧
    (update_excel_for_single_file
        [["", "", "AcmeCo"], [], [], ["", "ProdA"], ["", "รวมเป็นเงิน"]]
        ⟨"NewCo", "", [⟨"ProdB", 1, "ชิ้น", 10, 10⟩], 100, 7, 107,
          Val.q 0, Val.s "", Val.s "", Val.s ""⟩).newProducts ≠ [] ∧
    ("รวมเป็นเงิน", 5) ∈ (update_excel_for_single_file
        [["", "", "AcmeCo"], [], [], ["", "ProdA"], ["", "รวมเป็นเงิน"]]
        ⟨"NewCo", "", [⟨"ProdB", 1, "ชิ้น", 10, 10⟩], 100, 7, 107,
          Val.q 0, Val.s "", Val.s "", Val.s ""⟩).scanSummary ∧
    ((update_excel_for_single_file
        [["", "", "AcmeCo"], [], [], ["", "ProdA"], ["", "รวมเป็นเงิน"]]
        ⟨"NewCo", "", [⟨"ProdB", 1, "ชิ้น", 10, 10⟩], 100, 7, 107,
          Val.q 0, Val.s "", Val.s "", Val.s ""⟩).shiftedSummary
      = (update_excel_for_single_file
        [["", "", "AcmeCo"], [], [], ["", "ProdA"], ["", "รวมเป็นเงิน"]]
        ⟨"NewCo", "", [⟨"ProdB", 1, "ชิ้น", 10, 10⟩], 100, 7, 107,
          Val.q 0, Val.s "", Val.s "", Val.s ""⟩).scanSummary.map
          (fun p => (p.1, p.2 + (update_excel_for_single_file
            [["", "", "AcmeCo"], [], [], ["", "ProdA"], ["", "รวมเป็นเงิน"]]
            ⟨"NewCo", "", [⟨"ProdB", 1, "ชิ้น", 10, 10⟩], 100, 7, 107,
              Val.q 0, Val.s "", Val.s "", Val.s ""⟩).newProducts.length)) ∧
      ∃ v, ("รวมเป็นเงิน", v) ∈ summaryItems
          ⟨"NewCo", "", [⟨"ProdB", 1, "ชิ้น", 10, 10⟩], 100, 7, 107,
            Val.q 0, Val.s "", Val.s "", Val.s ""⟩ ∧
        cellReq (update_excel_for_single_file
            [["", "", "AcmeCo"], [], [], ["", "ProdA"], ["", "รวมเป็นเงิน"]]
            ⟨"NewCo", "", [⟨"ProdB", 1, "ชิ้น", 10, 10⟩], 100, 7, 107,
              Val.q 0, Val.s "", Val.s "", Val.s ""⟩).priceCol
            (5 + (update_excel_for_single_file
            [["", "", "AcmeCo"], [], [], ["", "ProdA"], ["", "รวมเป็นเงิน"]]
            ⟨"NewCo", "", [⟨"ProdB", 1, "ชิ้น", 10, 10⟩], 100, 7, 107,
              Val.q 0, Val.s "", Val.s "", Val.s ""⟩).newProducts.length) v
          ∈ (update_excel_for_single_file
            [["", "", "AcmeCo"], [], [], ["", "ProdA"], ["", "รวมเป็นเงิน"]]
            ⟨"NewCo", "", [⟨"ProdB", 1, "ชิ้น", 10, 10⟩], 100, 7, 107,
              Val.q 0, Val.s "", Val.s "", Val.s ""⟩).batch) := by
  refine ⟨by decide, by decide, by decide, ?_⟩
  exact C4_summary_rows_shifted _ _ "รวมเป็นเงิน" 5 (by decide) (by decide) (by decide)

end DemoApp
